import Mathlib

/-!
Verification development for the `charybdis` Hi-Rez API client
(`src/charybdis/charybdis.py`).

Times are modelled as integers counting microseconds (Python `datetime`
and `timedelta` arithmetic is exact at microsecond resolution).  Waits
returned by the rate limiter are kept as exact microsecond differences;
the final `total_seconds()` float conversion is presentational only.
-/

namespace Charybdis

/-- The rate-limit delay and ledger, in microseconds.  `none` models
Python `None`. -/
abbrev Time := ℤ

/-- Shallow embedding of `Api._update_last` (charybdis.py lines 187-197).

Python:
```
def _update_last(self, now):
    if self.delay is None:
        return None
    if self._last is None or self._last + self.delay <= now:
        self._last = now
        return None
    self._last += self.delay
    to_sleep = self._last - now
    return to_sleep.total_seconds()
```
Returns `(to_sleep, new _last)`: the wait (`none` = schedule
immediately) and the updated ledger. -/
def updateLast (delay : Option Time) (last : Option Time) (now : Time) :
    Option Time × Option Time :=
  match delay with
  | none => (none, last)
  | some d =>
    match last with
    | none => (none, some now)
    | some l =>
      if l + d ≤ now then (none, some now)
      else (some (l + d - now), some (l + d))

/-- The literal reading of claim C1's branch condition, with "the elapsed
time since the last recorded call already exceeds the delay" read as a
strict inequality `now - l > d`:
* no prior call, or `now - l > d`: no wait is returned and the ledger is
  set to `now`;
* otherwise: the ledger becomes `l + d` and the returned wait is
  `(l + d) - now`;
* `delay = none`: no wait is returned. -/
def updateLastSpecStrict (delay : Option Time) (last : Option Time)
    (now : Time) : Prop :=
  match delay with
  | none => (updateLast delay last now).1 = none
  | some d =>
    match last with
    | none => updateLast delay last now = (none, some now)
    | some l =>
      if now - l > d then updateLast delay last now = (none, some now)
      else updateLast delay last now = (some (l + d - now), some (l + d))

instance (delay last : Option Time) (now : Time) :
    Decidable (updateLastSpecStrict delay last now) := by
  unfold updateLastSpecStrict
  cases delay with
  | none => exact inferInstance
  | some d =>
    cases last with
    | none => exact inferInstance
    | some l => exact inferInstance

/-- n-fold iteration of the rate limiter at a fixed instant `now`,
starting from an empty ledger: the ledger after `n` calls. -/
def ledgerAfter (d : Time) (now : Time) : ℕ → Option Time
  | 0 => none
  | n + 1 => (updateLast (some d) (ledgerAfter d now n) now).2

/-- Scheduled time of the `n`-th call (1-indexed) in a burst of calls all
issued at `now` with delay `d`: `now` plus the returned wait (`0` when no
wait is returned). -/
def schedTime (d : Time) (now : Time) (n : ℕ) : Time :=
  now + ((updateLast (some d) (ledgerAfter d now (n - 1)) now).1.getD 0)

lemma ledgerAfter_succ_eq (d now : Time) (k : ℕ) :
    ledgerAfter d now (k + 1) = some (now + k * max d 0) := by
  induction k with
  | zero => simp [ledgerAfter, updateLast]
  | succ k ih =>
    show (updateLast (some d) (ledgerAfter d now (k + 1)) now).2 = _
    rw [ih]
    rcases le_or_lt d 0 with hd | hd
    · have hmax : max d 0 = 0 := max_eq_right hd
      simp only [hmax, mul_zero, add_zero, updateLast]
      rw [if_pos (by linarith)]
    · have hmax : max d 0 = d := max_eq_left hd.le
      simp only [hmax, updateLast]
      rw [if_neg (by nlinarith [Nat.cast_nonneg (α := ℤ) k])]
      have : now + (k : ℤ) * d + d = now + ((k : ℤ) + 1) * d := by ring
      simp [this]

lemma schedTime_eq (d now : Time) (k : ℕ) (hk : 1 ≤ k) :
    schedTime d now k = now + ((k : ℤ) - 1) * max d 0 := by
  obtain ⟨j, rfl⟩ := Nat.exists_eq_add_of_le hk
  unfold schedTime
  have hpred : 1 + j - 1 = j := by omega
  rw [hpred]
  cases j with
  | zero => simp [ledgerAfter, updateLast]
  | succ j =>
    rw [ledgerAfter_succ_eq]
    rcases le_or_lt d 0 with hd | hd
    · have hmax : max d 0 = 0 := max_eq_right hd
      simp only [hmax, mul_zero, add_zero, updateLast]
      rw [if_pos (by linarith)]
      simp
    · have hmax : max d 0 = d := max_eq_left hd.le
      simp only [hmax, updateLast]
      rw [if_neg (by nlinarith [Nat.cast_nonneg (α := ℤ) j])]
      simp only [Option.getD_some]
      push_cast
      ring

/-! ### MD5 (RFC 1321), as used by Python `hashlib.md5(...).hexdigest()`

Bytes are naturals below 256, 32-bit words naturals below `2^32`;
overflow is explicit `% 2^32`. -/

/-- Truncation to a 32-bit word. -/
def m32 (x : ℕ) : ℕ := x % 4294967296

/-- 32-bit bitwise complement (valid on inputs below `2^32`). -/
def mnot (x : ℕ) : ℕ := 4294967295 - m32 x

/-- 32-bit left rotation by `n` (for `0 < n < 32`). -/
def rotl (x n : ℕ) : ℕ := m32 (m32 x <<< n) ||| (m32 x >>> (32 - n))

/-- The 64 MD5 sine-derived constants `K[i] = floor(2^32 * abs(sin(i+1)))`. -/
def md5K : List ℕ :=
  [3614090360, 3905402710, 606105819, 3250441966, 4118548399, 1200080426,
   2821735955, 4249261313, 1770035416, 2336552879, 4294925233, 2304563134,
   1804603682, 4254626195, 2792965006, 1236535329, 4129170786, 3225465664,
   643717713, 3921069994, 3593408605, 38016083, 3634488961, 3889429448,
   568446438, 3275163606, 4107603335, 1163531501, 2850285829, 4243563512,
   1735328473, 2368359562, 4294588738, 2272392833, 1839030562, 4259657740,
   2763975236, 1272893353, 4139469664, 3200236656, 681279174, 3936430074,
   3572445317, 76029189, 3654602809, 3873151461, 530742520, 3299628645,
   4096336452, 1126891415, 2878612391, 4237533241, 1700485571, 2399980690,
   4293915773, 2240044497, 1873313359, 4264355552, 2734768916, 1309151649,
   4149444226, 3174756917, 718787259, 3951481745]

/-- The 64 MD5 per-round left-rotation amounts. -/
def md5S : List ℕ :=
  [7, 12, 17, 22, 7, 12, 17, 22, 7, 12, 17, 22, 7, 12, 17, 22,
   5, 9, 14, 20, 5, 9, 14, 20, 5, 9, 14, 20, 5, 9, 14, 20,
   4, 11, 16, 23, 4, 11, 16, 23, 4, 11, 16, 23, 4, 11, 16, 23,
   6, 10, 15, 21, 6, 10, 15, 21, 6, 10, 15, 21, 6, 10, 15, 21]

/-- The MD5 round mixing function (F, G, H, I by 16-round block). -/
def md5Mix (i b c d : ℕ) : ℕ :=
  if i < 16 then (b &&& c) ||| (mnot b &&& d)
  else if i < 32 then (d &&& b) ||| (mnot d &&& c)
  else if i < 48 then b ^^^ c ^^^ d
  else c ^^^ (b ||| mnot d)

/-- The MD5 message-word index for round `i`. -/
def md5WordIdx (i : ℕ) : ℕ :=
  if i < 16 then i
  else if i < 32 then (5 * i + 1) % 16
  else if i < 48 then (3 * i + 5) % 16
  else (7 * i) % 16

/-- Little-endian 32-bit word `g` of a 64-byte chunk. -/
def chunkWord (chunk : List ℕ) (g : ℕ) : ℕ :=
  chunk.getD (4 * g) 0 + 256 * chunk.getD (4 * g + 1) 0 +
    65536 * chunk.getD (4 * g + 2) 0 + 16777216 * chunk.getD (4 * g + 3) 0

/-- One MD5 round on state `(a, b, c, d)`. -/
def md5Step (chunk : List ℕ) (st : ℕ × ℕ × ℕ × ℕ) (i : ℕ) : ℕ × ℕ × ℕ × ℕ :=
  let f := m32 (md5Mix i st.2.1 st.2.2.1 st.2.2.2 + st.1 + md5K.getD i 0 +
    chunkWord chunk (md5WordIdx i))
  (st.2.2.2, m32 (st.2.1 + rotl f (md5S.getD i 0)), st.2.1, st.2.2.1)

/-- Process one 64-byte chunk: 64 rounds, then add into the state. -/
def md5Chunk (st : ℕ × ℕ × ℕ × ℕ) (chunk : List ℕ) : ℕ × ℕ × ℕ × ℕ :=
  let e := (List.range 64).foldl (md5Step chunk) st
  (m32 (st.1 + e.1), m32 (st.2.1 + e.2.1), m32 (st.2.2.1 + e.2.2.1),
    m32 (st.2.2.2 + e.2.2.2))

/-- `k` little-endian bytes of `x`. -/
def toBytesLE : ℕ → ℕ → List ℕ
  | 0, _ => []
  | k + 1, x => x % 256 :: toBytesLE k (x / 256)

/-- MD5 padding: append `0x80`, zero-pad to 56 mod 64, then the 8-byte
little-endian bit length. -/
def md5Pad (msg : List ℕ) : List ℕ :=
  msg ++ [128] ++ List.replicate ((119 - msg.length % 64) % 64) 0 ++
    toBytesLE 8 (8 * msg.length)

/-- Split a byte list into 64-byte chunks. -/
def toChunks (l : List ℕ) : List (List ℕ) :=
  if h : l.length = 0 then []
  else l.take 64 :: toChunks (l.drop 64)
termination_by l.length
decreasing_by
  rw [List.length_drop]
  exact Nat.sub_lt (Nat.pos_of_ne_zero h) (by omega)

/-- Serialize the final MD5 state as 16 little-endian bytes. -/
def md5Final (st : ℕ × ℕ × ℕ × ℕ) : List ℕ :=
  toBytesLE 4 st.1 ++ toBytesLE 4 st.2.1 ++ toBytesLE 4 st.2.2.1 ++
    toBytesLE 4 st.2.2.2

/-- MD5 digest of a byte list: 16 bytes. -/
def md5Bytes (msg : List ℕ) : List ℕ :=
  md5Final ((toChunks (md5Pad msg)).foldl md5Chunk
    (1732584193, 4023233417, 2562383102, 271733878))

/-- Lowercase hexadecimal digit. -/
def hexChar (n : ℕ) : Char :=
  if n < 10 then Char.ofNat (48 + n) else Char.ofNat (87 + n)

/-- Two lowercase hex digits of a byte. -/
def byteHex (b : ℕ) : List Char := [hexChar (b / 16 % 16), hexChar (b % 16)]

/-- Lowercase hexadecimal rendering of a byte list, as Python
`hexdigest()`. -/
def hexDigest (bs : List ℕ) : String := ⟨(bs.map byteHex).flatten⟩

/-- Lowercase hex MD5 digest of a byte list. -/
def md5Hex (msg : List ℕ) : String := hexDigest (md5Bytes msg)

/-- UTF-8 encoding of a single code point. -/
def utf8Char (n : ℕ) : List ℕ :=
  if n < 128 then [n]
  else if n < 2048 then [192 + n / 64, 128 + n % 64]
  else if n < 65536 then [224 + n / 4096, 128 + n / 64 % 64, 128 + n % 64]
  else [240 + n / 262144, 128 + n / 4096 % 64, 128 + n / 64 % 64,
    128 + n % 64]

/-- UTF-8 encoding of a string, as Python `str.encode("utf8")`. -/
def utf8Encode (s : String) : List ℕ :=
  (s.data.map (fun c => utf8Char c.toNat)).flatten

/-! ### The `Api` client state

Fields of the Python `Api` object that the claims touch.  The HTTP
transport fields (`base_url`, `verify`, `client`, `aclient`) carry no
logic of their own and are left out; fetching is modelled by an oracle
below. -/

/-- The mutable client state of the Python `Api` class. -/
structure Api where
  dev_id : String
  auth_key : String
  delay : Option Time
  _session_id : Option String
  _last : Option Time
deriving DecidableEq

/-- Shallow embedding of `Api._create_signature` (charybdis.py lines
211-214): the MD5 hexdigest of the UTF-8 bytes of
`dev_id + method_name + auth_key + timestamp`. -/
def Api._create_signature (a : Api) (method_name timestamp : String) :
    String :=
  md5Hex (utf8Encode (a.dev_id ++ method_name ++ a.auth_key ++ timestamp))

/-! ### UTC timestamp formatting

`_call_method` captures `now = datetime.datetime.now(datetime.timezone.utc)`
once and `_create_url` renders it with `now.strftime("%Y%m%d%H%M%S")`.
`now` is modelled as microseconds since the Unix epoch (non-negative for
any real clock reading); the civil-date conversion below is the standard
days-to-Gregorian algorithm. -/

/-- Zero-padded two-digit decimal rendering. -/
def pad2 (n : ℕ) : String := if n < 10 then "0" ++ toString n else toString n

/-- Zero-padded four-digit decimal rendering. -/
def pad4 (n : ℕ) : String :=
  if n < 10 then "000" ++ toString n
  else if n < 100 then "00" ++ toString n
  else if n < 1000 then "0" ++ toString n
  else toString n

/-- Gregorian (year, month, day) of a day count since 1970-01-01. -/
def civilFromDays (z : ℕ) : ℕ × ℕ × ℕ :=
  let w := z + 719468
  let era := w / 146097
  let doe := w % 146097
  let yoe := (doe - doe / 1460 + doe / 36524 - doe / 146096) / 365
  let y := yoe + era * 400
  let doy := doe - (365 * yoe + yoe / 4 - yoe / 100)
  let mp := (5 * doy + 2) / 153
  let d := doy - (153 * mp + 2) / 5 + 1
  let m := if mp < 10 then mp + 3 else mp - 9
  (if m ≤ 2 then y + 1 else y, m, d)

/-- `now.strftime("%Y%m%d%H%M%S")` for a UTC instant given as
microseconds since the epoch. -/
def fmtTimestamp (now : Time) : String :=
  let secs := now.toNat / 1000000
  let rem := secs % 86400
  let ymd := civilFromDays (secs / 86400)
  pad4 ymd.1 ++ pad2 ymd.2.1 ++ pad2 ymd.2.2 ++
    pad2 (rem / 3600) ++ pad2 (rem % 3600 / 60) ++ pad2 (rem % 60)

/-- The trailing `/{arg1}/{arg2}/...` part of the URL
(`for arg in args: url += f"/{arg}"`). -/
def argsPart (args : List String) : String :=
  args.foldl (fun acc arg => acc ++ "/" ++ arg) ""

/-- Shallow embedding of `Api._create_url` (charybdis.py lines 199-209).
Returns `none` when the Python `assert self._session_id is not None`
fails (method other than `"createsession"` with no cached session). -/
def Api._create_url (a : Api) (now : Time) (method_name : String)
    (args : List String) : Option String :=
  let timestamp := fmtTimestamp now
  let signature := a._create_signature method_name timestamp
  let base := method_name ++ "json/" ++ a.dev_id ++ "/" ++ signature
  if method_name ≠ "createsession" then
    match a._session_id with
    | none => none
    | some sid =>
      some (base ++ "/" ++ sid ++ "/" ++ timestamp ++ argsPart args)
  else
    some (base ++ "/" ++ timestamp ++ argsPart args)

/-! ### Shape of the hex digest -/

/-- The sixteen lowercase hexadecimal digit characters. -/
def hexAlphabet : List Char := "0123456789abcdef".data

lemma toBytesLE_length (k x : ℕ) : (toBytesLE k x).length = k := by
  induction k generalizing x with
  | zero => rfl
  | succ k ih => simp [toBytesLE, ih]

lemma toBytesLE_lt (k x : ℕ) : ∀ b ∈ toBytesLE k x, b < 256 := by
  induction k generalizing x with
  | zero => simp [toBytesLE]
  | succ k ih =>
    simp only [toBytesLE, List.mem_cons]
    rintro b (rfl | hb)
    · exact Nat.mod_lt _ (by omega)
    · exact ih _ _ hb

lemma hexChar_mem_alphabet : ∀ n, n < 16 → hexChar n ∈ hexAlphabet := by
  decide

lemma byteHex_mem_alphabet (b : ℕ) (_hb : b < 256) :
    ∀ c ∈ byteHex b, c ∈ hexAlphabet := by
  intro c hc
  simp only [byteHex, List.mem_cons, List.not_mem_nil, or_false] at hc
  rcases hc with rfl | rfl
  · exact hexChar_mem_alphabet _ (Nat.mod_lt _ (by omega))
  · exact hexChar_mem_alphabet _ (Nat.mod_lt _ (by omega))

lemma hexDigest_length (bs : List ℕ) :
    (hexDigest bs).length = 2 * bs.length := by
  show ((bs.map byteHex).flatten).length = 2 * bs.length
  induction bs with
  | nil => rfl
  | cons b bs ih =>
    have hb2 : (byteHex b).length = 2 := rfl
    simp only [List.map_cons, List.flatten_cons, List.length_append, ih,
      List.length_cons, hb2]
    ring

lemma hexDigest_mem (bs : List ℕ) (h : ∀ b ∈ bs, b < 256) :
    ∀ c ∈ (hexDigest bs).data, c ∈ hexAlphabet := by
  show ∀ c ∈ (bs.map byteHex).flatten, c ∈ hexAlphabet
  induction bs with
  | nil => simp
  | cons b bs ih =>
    simp only [List.map_cons, List.flatten_cons, List.mem_append]
    rintro c (hc | hc)
    · exact byteHex_mem_alphabet b (h b (List.mem_cons_self b bs)) c hc
    · exact ih (fun x hx => h x (List.mem_cons_of_mem b hx)) c hc

lemma md5Final_length (st : ℕ × ℕ × ℕ × ℕ) : (md5Final st).length = 16 := by
  simp [md5Final, toBytesLE_length]

lemma md5Final_lt (st : ℕ × ℕ × ℕ × ℕ) : ∀ b ∈ md5Final st, b < 256 := by
  intro b hb
  simp only [md5Final, List.mem_append] at hb
  rcases hb with ((hb | hb) | hb) | hb <;> exact toBytesLE_lt _ _ _ hb

lemma md5Hex_length (msg : List ℕ) : (md5Hex msg).length = 32 := by
  rw [md5Hex, hexDigest_length, md5Bytes, md5Final_length]

lemma md5Hex_mem (msg : List ℕ) :
    ∀ c ∈ (md5Hex msg).data, c ∈ hexAlphabet :=
  hexDigest_mem _ (md5Final_lt _)

/-! ### Transport model

HTTP is modelled by an oracle mapping each fetched path to a successful
response (`raise_for_status` failures and the constant `base_url` prefix
carry no logic relevant to the claims).  Every operation returns the
list of paths it fetched, in order. -/

/-- JSON values, as decoded by `httpx.Response.json()`. -/
inductive Json where
  | null : Json
  | bool (b : Bool) : Json
  | num (n : ℤ) : Json
  | str (s : String) : Json
  | arr (xs : List Json) : Json
  | obj (fields : List (String × Json)) : Json

/-- A successful HTTP response body, viewed as raw text and as decoded
JSON. -/
structure Response where
  text : String
  json : Json

/-- The network: what the server answers on each path. -/
def Oracle := String → Response

/-- Python `d[k]`: field lookup on a decoded JSON value, raising
`TypeError` on a non-object and `KeyError` on a missing key. -/
def getItem (j : Json) (k : String) : Except String Json :=
  match j with
  | Json.obj fields =>
    match fields.lookup k with
    | some v => Except.ok v
    | none => Except.error "KeyError"
  | _ => Except.error "TypeError"

/-- Shallow embedding of `Api.ping` (charybdis.py lines 85-90): fetch
the bare path `"pingjson"` and return its text; no client state is read
or written.  Result: (state, fetched paths, response text). -/
def Api.ping (a : Api) (o : Oracle) : Api × List String × String :=
  (a, ["pingjson"], (o "pingjson").text)

/-- `Api.aping` (lines 92-94) repeats `ping` with an awaited fetch; the
state transformation is identical. -/
def Api.aping (a : Api) (o : Oracle) : Api × List String × String :=
  Api.ping a o

/-- Outcome of one `_call_method`: the updated state, the wait handed to
`time.sleep` / `asyncio.sleep` (`none` = no sleep), the fetched paths
and the decoded body (or the raised error). -/
structure CallOut where
  st : Api
  wait : Option Time
  trace : List String
  res : Except String Json

/-- Shallow embedding of `Api._call_method` (charybdis.py lines
173-178): capture `now` once, update the rate-limit ledger (sleeping as
told), build the URL from the same `now`, fetch it and decode JSON.
`res` is the `AssertionError` of `_create_url` when the session is
missing for a non-`"createsession"` method. -/
def Api._call_method (a : Api) (o : Oracle) (now : Time) (m : String)
    (args : List String) : CallOut :=
  let r := updateLast a.delay a._last now
  let a' := { a with _last := r.2 }
  match Api._create_url a' now m args with
  | none => ⟨a', r.1, [], Except.error "AssertionError"⟩
  | some url => ⟨a', r.1, [url], Except.ok (o url).json⟩

/-- Outcome of `create_session` / `call_method`-level operations. -/
structure MethodOut where
  st : Api
  trace : List String
  res : Except String Json

/-- Shallow embedding of `Api.create_session` (charybdis.py lines
163-171): `self._session_id = self._call_method("createsession")
["session_id"]`.  Missing key or non-object body raise as in Python;
the source would also cache a non-string token as-is, which no realistic
response produces — here it is modelled as an error. -/
def Api.create_session (a : Api) (o : Oracle) (now : Time) : MethodOut :=
  let c := Api._call_method a o now "createsession" []
  match c.res with
  | Except.error e => ⟨c.st, c.trace, Except.error e⟩
  | Except.ok j =>
    match getItem j "session_id" with
    | Except.error e => ⟨c.st, c.trace, Except.error e⟩
    | Except.ok (Json.str s) =>
      ⟨{ c.st with _session_id := some s }, c.trace, Except.ok (Json.str s)⟩
    | Except.ok _ => ⟨c.st, c.trace, Except.error "non-string session id"⟩

/-- Shallow embedding of `Api.call_method` (charybdis.py lines 147-156):
create a session first when none is cached, then perform the call.
`now₁` is the clock reading of the (potential) session-creation call,
`now₂` that of the main call. -/
def Api.call_method (a : Api) (o : Oracle) (now₁ now₂ : Time) (m : String)
    (args : List String) : MethodOut :=
  match a._session_id with
  | some _ =>
    let c := Api._call_method a o now₂ m args
    ⟨c.st, c.trace, c.res⟩
  | none =>
    let s := Api.create_session a o now₁
    match s.res with
    | Except.error e => ⟨s.st, s.trace, Except.error e⟩
    | Except.ok _ =>
      let c := Api._call_method s.st o now₂ m args
      ⟨c.st, s.trace ++ c.trace, c.res⟩

/-- `Api.acall_method` (charybdis.py lines 158-161): the same session
check, the same (synchronous) `create_session`, and `_acall_method`,
whose state logic repeats `_call_method` with awaited sleep and fetch.
The state transformation is identical to `call_method`. -/
def Api.acall_method (a : Api) (o : Oracle) (now₁ now₂ : Time)
    (m : String) (args : List String) : MethodOut :=
  Api.call_method a o now₁ now₂ m args

/-- Shallow embedding of `Api._confirm_is_dict` (charybdis.py lines
135-139): pass a JSON object through unchanged, raise on anything
else. -/
def Api._confirm_is_dict (x : Json) : Except String Json :=
  match x with
  | Json.obj _ => Except.ok x
  | _ => Except.error "Expected dict"

/-- Shallow embedding of `Api._confirm_is_list` (charybdis.py lines
141-145). -/
def Api._confirm_is_list (x : Json) : Except String Json :=
  match x with
  | Json.arr _ => Except.ok x
  | _ => Except.error "Expected list"

/-- Shallow embedding of `Api.call_method_dict` (charybdis.py lines
117-119). -/
def Api.call_method_dict (a : Api) (o : Oracle) (now₁ now₂ : Time)
    (m : String) (args : List String) : MethodOut :=
  let c := Api.call_method a o now₁ now₂ m args
  match c.res with
  | Except.error e => ⟨c.st, c.trace, Except.error e⟩
  | Except.ok j => ⟨c.st, c.trace, Api._confirm_is_dict j⟩

/-- Shallow embedding of `Api.call_method_list` (charybdis.py lines
121-123). -/
def Api.call_method_list (a : Api) (o : Oracle) (now₁ now₂ : Time)
    (m : String) (args : List String) : MethodOut :=
  let c := Api.call_method a o now₁ now₂ m args
  match c.res with
  | Except.error e => ⟨c.st, c.trace, Except.error e⟩
  | Except.ok j => ⟨c.st, c.trace, Api._confirm_is_list j⟩

/-- `Api.acall_method_dict` (lines 125-129): same as `call_method_dict`
with awaited transport. -/
def Api.acall_method_dict (a : Api) (o : Oracle) (now₁ now₂ : Time)
    (m : String) (args : List String) : MethodOut :=
  Api.call_method_dict a o now₁ now₂ m args

/-- `Api.acall_method_list` (lines 131-133): same as `call_method_list`
with awaited transport. -/
def Api.acall_method_list (a : Api) (o : Oracle) (now₁ now₂ : Time)
    (m : String) (args : List String) : MethodOut :=
  Api.call_method_list a o now₁ now₂ m args

/-- Shallow embedding of `Api.__init__` (charybdis.py lines 25-45):
missing `dev_id` or `auth_key` raises `ValueError` before any state
exists; otherwise the client starts with no session and an empty
rate-limit ledger. -/
def Api.init (dev_id auth_key : Option String) (delay : Option Time) :
    Except String Api :=
  match dev_id, auth_key with
  | some d, some k => Except.ok ⟨d, k, delay, none, none⟩
  | _, _ => Except.error "dev_id and/or auth_key is None."

/-- C1 (counterexample): with delay 1, ledger 0 and now 1 the elapsed
time equals the delay exactly; the code schedules immediately and returns
no wait, while the claim's strict "already exceeds" reading demands a
wait of `(l + d) - now = 0` be returned. -/
theorem C1_counterexample :
    ¬ updateLastSpecStrict (some 1) (some 0) 1 := by decide

/-- C1 (amended): as claim C1, with "already exceeds the delay" weakened
to "is at least the delay" (`now - l ≥ d`): if there is no prior recorded
call, or the elapsed time since the last recorded call is at least the
delay, no wait is returned and the ledger is set to `now`; otherwise the
ledger advances by exactly one delay increment and the returned wait is
the new ledger value minus `now`; with delay disabled no wait is ever
returned. -/
theorem C1_update_last_amended (delay last : Option Time) (now : Time) :
    (delay = none → (updateLast delay last now).1 = none) ∧
    (∀ d, delay = some d →
      ((last = none ∨ ∃ l, last = some l ∧ d ≤ now - l) →
        updateLast delay last now = (none, some now)) ∧
      (∀ l, last = some l → now - l < d →
        updateLast delay last now = (some (l + d - now), some (l + d)))) := by
  refine ⟨?_, ?_⟩
  · rintro rfl; rfl
  · rintro d rfl
    refine ⟨?_, ?_⟩
    · rintro (rfl | ⟨l, rfl, hl⟩)
      · rfl
      · simp only [updateLast]
        rw [if_pos (by linarith)]
    · rintro l rfl hl
      simp only [updateLast]
      rw [if_neg (by linarith)]

/-- Witness for C1_update_last_amended: delay 10, ledger 5, now 7 — the
elapsed time 2 is under the delay, so the ledger advances to 15 and the
wait 8 is returned. -/
theorem C1_update_last_amended_witness :
    (some (10 : ℤ) = some 10) ∧ (some (5 : ℤ) = some 5) ∧ ((7 : ℤ) - 5 < 10) ∧
    updateLast (some 10) (some 5) 7 = (some 8, some 15) :=
  ⟨rfl, rfl, by decide,
    ((C1_update_last_amended (some 10) (some 5) 7).2 10 rfl).2 5 rfl
      (by decide)⟩

/-- C2: for every delay `d` and every `N ≥ 1`, if `N` calls are issued
instantaneously at time `now` starting from an empty ledger, the `N`-th
call's scheduled time is at least `(N-1) * d` after the first call's
scheduled time. -/
theorem C2_burst_spacing (d now : Time) (N : ℕ) (hN : 1 ≤ N) :
    schedTime d now 1 + ((N : ℤ) - 1) * d ≤ schedTime d now N := by
  rw [schedTime_eq d now 1 le_rfl, schedTime_eq d now N hN]
  push_cast
  have h1 : ((N : ℤ) - 1) * d ≤ ((N : ℤ) - 1) * max d 0 := by
    apply mul_le_mul_of_nonneg_left (le_max_left d 0)
    have : (1 : ℤ) ≤ (N : ℤ) := by exact_mod_cast hN
    linarith
  linarith

/-- Witness for C2_burst_spacing: delay 100, three calls at time 0 —
their scheduled times are 0, 100, 200 and the third is 200 ≥ 2·100 after
the first. -/
theorem C2_burst_spacing_witness :
    (1 ≤ 3) ∧ schedTime 100 0 1 + ((3 : ℤ) - 1) * 100 ≤ schedTime 100 0 3 :=
  ⟨by decide, C2_burst_spacing 100 0 3 (by decide)⟩

/-- C3: for every developer id, method name, shared secret and timestamp,
`_create_signature` returns the MD5 digest of the UTF-8 bytes of
`devId + methodName + sharedSecret + timestamp`, rendered as 32 lowercase
hexadecimal characters, and the result is deterministic (two runs on the
same inputs agree). -/
theorem C3_create_signature (devId key method ts : String) :
    Api._create_signature ⟨devId, key, none, none, none⟩ method ts =
      md5Hex (utf8Encode (devId ++ method ++ key ++ ts)) ∧
    (Api._create_signature ⟨devId, key, none, none, none⟩ method ts).length
      = 32 ∧
    (∀ c ∈ (Api._create_signature
        ⟨devId, key, none, none, none⟩ method ts).data, c ∈ hexAlphabet) ∧
    (∀ a₁ a₂ : Api, a₁.dev_id = devId → a₁.auth_key = key →
      a₂.dev_id = devId → a₂.auth_key = key →
      Api._create_signature a₁ method ts =
        Api._create_signature a₂ method ts) := by
  refine ⟨rfl, md5Hex_length _, md5Hex_mem _, ?_⟩
  intro a₁ a₂ h₁ h₂ h₃ h₄
  simp [Api._create_signature, h₁, h₂, h₃, h₄]

/-- Witness for C3_create_signature: at concrete credentials the
signature is the MD5 hex digest of the concatenation, and two clients
with the same credentials (but different session and ledger state)
produce the same signature. -/
theorem C3_create_signature_witness :
    Api._create_signature ⟨"dev", "key", none, none, none⟩ "getgods"
        "20240101123456" =
      md5Hex (utf8Encode ("dev" ++ "getgods" ++ "key" ++
        "20240101123456")) ∧
    Api._create_signature ⟨"dev", "key", some 5, some "sess", some 3⟩
        "getgods" "20240101123456" =
      Api._create_signature ⟨"dev", "key", none, none, none⟩ "getgods"
        "20240101123456" :=
  ⟨(C3_create_signature "dev" "key" "getgods" "20240101123456").1,
   (C3_create_signature "dev" "key" "getgods" "20240101123456").2.2.2
     _ _ rfl rfl rfl rfl⟩

/-! ### Structure lemmas about URL construction and calls -/

/-- The URL fetched by a session-creation call. -/
def csUrl (a : Api) (now : Time) (args : List String) : String :=
  "createsession" ++ "json/" ++ a.dev_id ++ "/" ++
    Api._create_signature a "createsession" (fmtTimestamp now) ++ "/" ++
    fmtTimestamp now ++ argsPart args

lemma create_url_cs (a : Api) (now : Time) (args : List String) :
    Api._create_url a now "createsession" args = some (csUrl a now args) := by
  unfold Api._create_url csUrl
  rw [if_neg (by simp)]

lemma create_url_some (a : Api) (now : Time) (m : String)
    (args : List String) (sid : String) (hs : a._session_id = some sid)
    (hm : m ≠ "createsession") :
    Api._create_url a now m args =
      some (m ++ "json/" ++ a.dev_id ++ "/" ++
        Api._create_signature a m (fmtTimestamp now) ++ "/" ++ sid ++ "/" ++
        fmtTimestamp now ++ argsPart args) := by
  unfold Api._create_url
  rw [if_pos hm, hs]

lemma create_url_none (a : Api) (now : Time) (m : String)
    (args : List String) (hs : a._session_id = none)
    (hm : m ≠ "createsession") :
    Api._create_url a now m args = none := by
  unfold Api._create_url
  rw [if_pos hm, hs]

lemma call_method_cs (a : Api) (o : Oracle) (now : Time)
    (args : List String) :
    Api._call_method a o now "createsession" args =
      ⟨{ a with _last := (updateLast a.delay a._last now).2 },
       (updateLast a.delay a._last now).1,
       [csUrl { a with _last := (updateLast a.delay a._last now).2 } now
          args],
       Except.ok (o (csUrl { a with _last :=
          (updateLast a.delay a._last now).2 } now args)).json⟩ := by
  simp only [Api._call_method, create_url_cs]

/-- C5: the URL path built by `_create_url` is
`{method}json/{devId}/{signature}[/{sessionId}]/{timestamp}/{args...}`;
the session segment is present for every method except
`"createsession"`, and omitted exactly when the method is
`"createsession"`. -/
theorem C5_create_url (a : Api) (now : Time) (m : String)
    (args : List String) :
    (m = "createsession" →
      Api._create_url a now m args =
        some (m ++ "json/" ++ a.dev_id ++ "/" ++
          a._create_signature m (fmtTimestamp now) ++ "/" ++
          fmtTimestamp now ++ argsPart args)) ∧
    (m ≠ "createsession" → ∀ sid, a._session_id = some sid →
      Api._create_url a now m args =
        some (m ++ "json/" ++ a.dev_id ++ "/" ++
          a._create_signature m (fmtTimestamp now) ++ "/" ++ sid ++ "/" ++
          fmtTimestamp now ++ argsPart args)) := by
  constructor
  · rintro rfl
    simp [Api._create_url]
  · intro hm sid hsid
    simp [Api._create_url, hm, hsid]

/-- Witness for C5_create_url: at concrete inputs, the create-session
URL has no session segment and a `"getgods"` URL carries the cached
session id between the signature and the timestamp. -/
theorem C5_create_url_witness :
    (("createsession" : String) = "createsession" ∧
      Api._create_url ⟨"dev", "key", none, none, none⟩ 0 "createsession"
          [] =
        some ("createsession" ++ "json/" ++ "dev" ++ "/" ++
          Api._create_signature ⟨"dev", "key", none, none, none⟩
            "createsession" (fmtTimestamp 0) ++ "/" ++
          fmtTimestamp 0 ++ argsPart [])) ∧
    (("getgods" : String) ≠ "createsession" ∧
      (⟨"dev", "key", none, some "sid", none⟩ : Api)._session_id =
        some "sid" ∧
      Api._create_url ⟨"dev", "key", none, some "sid", none⟩ 0 "getgods"
          ["1", "2"] =
        some ("getgods" ++ "json/" ++ "dev" ++ "/" ++
          Api._create_signature ⟨"dev", "key", none, some "sid", none⟩
            "getgods" (fmtTimestamp 0) ++ "/" ++ "sid" ++ "/" ++
          fmtTimestamp 0 ++ argsPart ["1", "2"])) :=
  ⟨⟨rfl, (C5_create_url ⟨"dev", "key", none, none, none⟩ 0 "createsession"
      []).1 rfl⟩,
   ⟨by decide, rfl,
    (C5_create_url ⟨"dev", "key", none, some "sid", none⟩ 0 "getgods"
      ["1", "2"]).2 (by decide) "sid" rfl⟩⟩

lemma create_session_spec (a : Api) (o : Oracle) (now : Time) :
    (∃ u, (Api.create_session a o now).trace = [u]) ∧
    ((Api.create_session a o now).res.isOk →
      ∃ tok, (Api.create_session a o now).st =
        { a with _session_id := some tok,
                 _last := (updateLast a.delay a._last now).2 }) := by
  simp only [Api.create_session, call_method_cs]
  cases hg : getItem ((o (csUrl { a with _last :=
      (updateLast a.delay a._last now).2 } now [])).json) "session_id" with
  | error e => simp [hg, Except.isOk, Except.toBool]
  | ok v => cases v <;> simp [hg, Except.isOk, Except.toBool]

/-- C7: constructing the client with `dev_id` or `auth_key` missing
(`None`) raises immediately and yields no client state; with both
present, construction succeeds with the given delay, no session and an
empty rate-limit ledger. -/
theorem C7_init (dev key : Option String) (delay : Option Time) :
    ((dev = none ∨ key = none) →
      Api.init dev key delay =
        Except.error "dev_id and/or auth_key is None.") ∧
    (∀ d k, dev = some d → key = some k →
      Api.init dev key delay = Except.ok ⟨d, k, delay, none, none⟩) := by
  constructor
  · rintro (rfl | rfl)
    · rfl
    · cases dev <;> rfl
  · rintro d k rfl rfl
    rfl

/-- Witness for C7_init: a missing `dev_id` raises; full credentials
construct the fresh client state. -/
theorem C7_init_witness :
    ((none = (none : Option String)) ∨ (some "key" = none)) ∧
    Api.init none (some "key") (some 100000) =
      Except.error "dev_id and/or auth_key is None." ∧
    Api.init (some "dev") (some "key") (some 100000) =
      Except.ok ⟨"dev", "key", some 100000, none, none⟩ :=
  ⟨Or.inl rfl,
   (C7_init none (some "key") (some 100000)).1 (Or.inl rfl),
   (C7_init (some "dev") (some "key") (some 100000)).2 "dev" "key" rfl rfl⟩

/-- C9: `ping` (and `aping`) returns the text of the bare `"pingjson"`
path, leaves the whole client state unchanged, its outcome is
independent of the session token and the rate-limit ledger, and the
fetched path contains no separator (hence no developer id, signature,
session or timestamp segment). -/
theorem C9_ping_frame (a : Api) (o : Oracle) :
    Api.ping a o = (a, ["pingjson"], (o "pingjson").text) ∧
    (Api.ping a o).1 = a ∧
    (∀ a' : Api, (Api.ping a' o).2 = (Api.ping a o).2) ∧
    ("pingjson".data.contains '/') = false ∧
    Api.aping a o = Api.ping a o := by
  exact ⟨rfl, rfl, fun a' => rfl, by decide, rfl⟩

lemma call_method_raw_st (a : Api) (o : Oracle) (now : Time) (m : String)
    (args : List String) :
    (Api._call_method a o now m args).st =
      { a with _last := (updateLast a.delay a._last now).2 } := by
  unfold Api._call_method
  simp only
  split <;> rfl

/-- A server whose every response is `{"session_id": "tok"}`. -/
def testOracle : Oracle :=
  fun _ => ⟨"", Json.obj [("session_id", Json.str "tok")]⟩

/-- C4: `ping` never touches the session; `call_method` (and
`acall_method`, which transforms state identically) performs the plain
call when a token is cached, preserving it; with no cached token it runs
`create_session` first — a single extra fetch — and on success the
returned token is cached, so the resulting state has a token and every
later call takes the plain path. -/
theorem C4_lazy_session (a : Api) (o : Oracle) (now₁ now₂ : Time)
    (m : String) (args : List String) :
    ((Api.ping a o).1 = a) ∧
    (∀ sid, a._session_id = some sid →
      Api.call_method a o now₁ now₂ m args =
        ⟨(Api._call_method a o now₂ m args).st,
         (Api._call_method a o now₂ m args).trace,
         (Api._call_method a o now₂ m args).res⟩ ∧
      (Api.call_method a o now₁ now₂ m args).st._session_id = some sid) ∧
    (a._session_id = none →
      (∃ u, (Api.create_session a o now₁).trace = [u]) ∧
      ((Api.create_session a o now₁).res.isOk = true →
        ∃ tok, (Api.create_session a o now₁).st._session_id = some tok ∧
          Api.call_method a o now₁ now₂ m args =
            ⟨(Api._call_method (Api.create_session a o now₁).st o now₂ m
                args).st,
             (Api.create_session a o now₁).trace ++
               (Api._call_method (Api.create_session a o now₁).st o now₂ m
                 args).trace,
             (Api._call_method (Api.create_session a o now₁).st o now₂ m
               args).res⟩ ∧
          (Api.call_method a o now₁ now₂ m args).st._session_id =
            some tok)) ∧
    Api.acall_method a o now₁ now₂ m args =
      Api.call_method a o now₁ now₂ m args := by
  refine ⟨rfl, ?_, ?_, rfl⟩
  · intro sid hsid
    constructor
    · simp only [Api.call_method, hsid]
    · simp only [Api.call_method, hsid]
      rw [call_method_raw_st]
      exact hsid
  · intro hnone
    refine ⟨(create_session_spec a o now₁).1, ?_⟩
    intro hok
    obtain ⟨tok, hst⟩ := (create_session_spec a o now₁).2 hok
    rcases hres : (Api.create_session a o now₁).res with e | j
    · rw [hres] at hok
      simp [Except.isOk, Except.toBool] at hok
    · refine ⟨tok, ?_, ?_, ?_⟩
      · rw [hst]
      · simp only [Api.call_method, hnone, hres]
      · simp only [Api.call_method, hnone, hres]
        rw [call_method_raw_st, hst]

/-- Witness for C4_lazy_session: with a cached token `"S"` the call
preserves it; starting with no token against a server answering
`{"session_id": "tok"}`, session creation succeeds and the call leaves
the token cached. -/
theorem C4_lazy_session_witness :
    ((⟨"d", "k", none, some "S", none⟩ : Api)._session_id = some "S" ∧
      (Api.call_method ⟨"d", "k", none, some "S", none⟩ testOracle 0 0
        "getgods" []).st._session_id = some "S") ∧
    ((⟨"d", "k", none, none, none⟩ : Api)._session_id = none ∧
      (Api.create_session ⟨"d", "k", none, none, none⟩ testOracle 0).res.isOk
        = true ∧
      ∃ tok,
        (Api.create_session ⟨"d", "k", none, none, none⟩ testOracle
          0).st._session_id = some tok ∧
        (Api.call_method ⟨"d", "k", none, none, none⟩ testOracle 0 0
          "getgods" []).st._session_id = some tok) :=
  ⟨⟨rfl,
    ((C4_lazy_session ⟨"d", "k", none, some "S", none⟩ testOracle 0 0
      "getgods" []).2.1 "S" rfl).2⟩,
   ⟨rfl, rfl,
    match ((C4_lazy_session ⟨"d", "k", none, none, none⟩ testOracle 0 0
        "getgods" []).2.2.1 rfl).2 rfl with
    | ⟨tok, h₁, _, h₃⟩ => ⟨tok, h₁, h₃⟩⟩⟩

lemma create_url_ignores_last (a : Api) (l : Option Time) (now : Time)
    (m : String) (args : List String) :
    Api._create_url { a with _last := l } now m args =
      Api._create_url a now m args := rfl

/-- C10: for a rate-limited call, the fetched URL embeds one single
timestamp — `fmtTimestamp now` for the `now` captured at the start of
`_call_method`, before any sleep — both inside the MD5 signature input
and as the path segment; and neither the fetched URL nor the decoded
result depends on the rate-limit ledger (hence on any time spent
sleeping). -/
theorem C10_presleep_timestamp (a : Api) (o : Oracle) (now : Time)
    (m : String) (args : List String) (sid : String)
    (hs : a._session_id = some sid) (hm : m ≠ "createsession") :
    (Api._call_method a o now m args).trace =
      [m ++ "json/" ++ a.dev_id ++ "/" ++
        md5Hex (utf8Encode (a.dev_id ++ m ++ a.auth_key ++
          fmtTimestamp now)) ++ "/" ++ sid ++ "/" ++ fmtTimestamp now ++
        argsPart args] ∧
    (∀ l, (Api._call_method { a with _last := l } o now m args).trace =
      (Api._call_method a o now m args).trace) ∧
    (∀ l, (Api._call_method { a with _last := l } o now m args).res =
      (Api._call_method a o now m args).res) := by
  have key : ∀ b : Api, b.dev_id = a.dev_id → b.auth_key = a.auth_key →
      b._session_id = some sid →
      Api._create_url b now m args =
        some (m ++ "json/" ++ a.dev_id ++ "/" ++
          md5Hex (utf8Encode (a.dev_id ++ m ++ a.auth_key ++
            fmtTimestamp now)) ++ "/" ++ sid ++ "/" ++ fmtTimestamp now ++
          argsPart args) := by
    intro b h1 h2 h3
    rw [create_url_some b now m args sid h3 hm]
    simp [Api._create_signature, h1, h2]
  have h1 := key { a with _last := (updateLast a.delay a._last now).2 }
    rfl rfl hs
  refine ⟨?_, ?_, ?_⟩
  · simp only [Api._call_method, h1]
  · intro l
    have h2 := key { a with _last := (updateLast a.delay l now).2 }
      rfl rfl hs
    simp only [Api._call_method, h1, h2]
  · intro l
    have h2 := key { a with _last := (updateLast a.delay l now).2 }
      rfl rfl hs
    simp only [Api._call_method, h1, h2]

/-- Witness for C10_presleep_timestamp: a concrete client with a cached
session fetches exactly the URL whose signature input and path segment
share the one timestamp of `now = 0`, whatever the ledger held. -/
theorem C10_presleep_timestamp_witness :
    ((⟨"d", "k", some 100000, some "sid", none⟩ : Api)._session_id =
      some "sid") ∧
    (("getgods" : String) ≠ "createsession") ∧
    (Api._call_method ⟨"d", "k", some 100000, some "sid", none⟩ testOracle
        0 "getgods" ["1"]).trace =
      ["getgods" ++ "json/" ++ "d" ++ "/" ++
        md5Hex (utf8Encode ("d" ++ "getgods" ++ "k" ++ fmtTimestamp 0)) ++
        "/" ++ "sid" ++ "/" ++ fmtTimestamp 0 ++ argsPart ["1"]] ∧
    (Api._call_method ⟨"d", "k", some 100000, some "sid", some (-5)⟩
        testOracle 0 "getgods" ["1"]).trace =
      (Api._call_method ⟨"d", "k", some 100000, some "sid", none⟩
        testOracle 0 "getgods" ["1"]).trace :=
  ⟨rfl, by decide,
   (C10_presleep_timestamp ⟨"d", "k", some 100000, some "sid", none⟩
     testOracle 0 "getgods" ["1"] "sid" rfl (by decide)).1,
   (C10_presleep_timestamp ⟨"d", "k", some 100000, some "sid", none⟩
     testOracle 0 "getgods" ["1"] "sid" rfl (by decide)).2.1 (some (-5))⟩

/-- C8: `_confirm_is_dict` returns its argument unchanged exactly when
it is a JSON object, `_confirm_is_list` exactly when it is an array, and
anything else raises; the dict/list wrappers (sync and async) apply
exactly these checks to the decoded value of `call_method`. -/
theorem C8_shape_check (x : Json) (a : Api) (o : Oracle) (now₁ now₂ : Time)
    (m : String) (args : List String) :
    (∀ y, Api._confirm_is_dict x = Except.ok y ↔
      (y = x ∧ ∃ fs, x = Json.obj fs)) ∧
    (∀ y, Api._confirm_is_list x = Except.ok y ↔
      (y = x ∧ ∃ xs, x = Json.arr xs)) ∧
    ((Api.call_method a o now₁ now₂ m args).res = Except.ok x →
      (Api.call_method_dict a o now₁ now₂ m args).st =
        (Api.call_method a o now₁ now₂ m args).st ∧
      (Api.call_method_dict a o now₁ now₂ m args).res =
        Api._confirm_is_dict x ∧
      (Api.call_method_list a o now₁ now₂ m args).res =
        Api._confirm_is_list x ∧
      (Api.acall_method_dict a o now₁ now₂ m args).res =
        Api._confirm_is_dict x ∧
      (Api.acall_method_list a o now₁ now₂ m args).res =
        Api._confirm_is_list x) := by
  refine ⟨?_, ?_, ?_⟩
  · intro y
    cases x <;> simp [Api._confirm_is_dict]
    tauto
  · intro y
    cases x <;> simp [Api._confirm_is_list]
    tauto
  · intro h
    refine ⟨?_, ?_, ?_, ?_, ?_⟩ <;>
      simp only [Api.call_method_dict, Api.call_method_list,
        Api.acall_method_dict, Api.acall_method_list, h]

/-- Witness for C8_shape_check: against a server answering a JSON
object, the dict wrapper passes the object through and the list wrapper
raises the type error. -/
theorem C8_shape_check_witness :
    ((Api.call_method ⟨"d", "k", none, some "sid", none⟩ testOracle 0 0
        "getgods" []).res =
      Except.ok (Json.obj [("session_id", Json.str "tok")])) ∧
    (Api.call_method_dict ⟨"d", "k", none, some "sid", none⟩ testOracle 0 0
        "getgods" []).res =
      Api._confirm_is_dict (Json.obj [("session_id", Json.str "tok")]) ∧
    (Api.call_method_list ⟨"d", "k", none, some "sid", none⟩ testOracle 0 0
        "getgods" []).res = Except.error "Expected list" ∧
    Api._confirm_is_dict (Json.obj [("session_id", Json.str "tok")]) =
      Except.ok (Json.obj [("session_id", Json.str "tok")]) :=
  ⟨rfl,
   ((C8_shape_check (Json.obj [("session_id", Json.str "tok")])
     ⟨"d", "k", none, some "sid", none⟩ testOracle 0 0 "getgods" []).2.2
       rfl).2.1,
   (((C8_shape_check (Json.obj [("session_id", Json.str "tok")])
     ⟨"d", "k", none, some "sid", none⟩ testOracle 0 0 "getgods" []).2.2
       rfl).2.2.1).trans rfl,
   ((C8_shape_check (Json.obj [("session_id", Json.str "tok")])
     ⟨"d", "k", none, some "sid", none⟩ testOracle 0 0 "getgods" []).1
       (Json.obj [("session_id", Json.str "tok")])).mpr
     ⟨rfl, [("session_id", Json.str "tok")], rfl⟩⟩

end Charybdis
